import Mathlib

/-!
Verification of the ai-judge evaluation pipeline.

Shallow embedding of the TypeScript sources under `app/lib/llm` and
`app/lib/services`.  JavaScript runtime values that flow out of
`JSON.parse` are modelled by `JsonValue`; JS truthiness, the
`String.prototype.match(/\{[\s\S]*\}/)` call and `JSON.parse` itself are
modelled explicitly so that the adapter response parser
(`parseEvaluationResult`), the executor (`executeEvaluation`) and the
orchestrator (`runEvaluations`) can be stated and proved about.
-/

namespace AiJudge

/-- JavaScript values produced by `JSON.parse` (numbers modelled exactly as
rationals; JS float rounding is not observable in any property below). -/
inductive JsonValue where
  | null
  | bool (b : Bool)
  | num (q : ℚ)
  | str (s : String)
  | arr (elems : List JsonValue)
  | obj (fields : List (String × JsonValue))

/-- JS truthiness of a defined value (`undefined` is handled at the
`Option` layer by `jsOrDefault`). -/
def truthy : JsonValue → Bool
  | .null => false
  | .bool b => b
  | .num q => !(q == 0)
  | .str s => !(s == "")
  | .arr _ => true
  | .obj _ => true

/-- Model of the JS idiom `v || dflt` applied to a possibly-missing field. -/
def jsOrDefault (v : Option JsonValue) (dflt : JsonValue) : JsonValue :=
  match v with
  | some x => if truthy x then x else dflt
  | none => dflt

/-- Property access `parsed.key` on a JSON.parse result: for objects the
last occurrence of a duplicated key wins, as in `JSON.parse`; anything
else yields `undefined` (`none`). -/
def getField (j : JsonValue) (key : String) : Option JsonValue :=
  match j with
  | .obj fields => (fields.reverse.find? (fun p => p.1 == key)).map (fun p => p.2)
  | _ => none

/-- Boolean test that `pat` occurs as a prefix of `l`. -/
def listPre : List Char → List Char → Bool
  | [], _ => true
  | a :: as, l =>
    match l with
    | [] => false
    | b :: bs => if a == b then listPre as bs else false

/-- Boolean test that `pat` occurs as a contiguous sublist of `l`;
models `String.prototype.includes` on the underlying characters. -/
def listHas (pat : List Char) : List Char → Bool
  | [] => listPre pat []
  | c :: rest => listPre pat (c :: rest) || listHas pat rest

/-- Model of `s.includes(sub)`. -/
def strHas (s sub : String) : Bool := listHas sub.data s.data

/-- Model of `text.toLowerCase()` (ASCII case mapping; only the ASCII
keywords of the fallback scan are ever compared against it). -/
def jsToLower (s : String) : String := ⟨s.data.map Char.toLower⟩

/-- Drop characters until the first `'{'` (the suffix keeps the brace). -/
def dropUntilOpen : List Char → List Char
  | [] => []
  | c :: cs => if c == '{' then c :: cs else dropUntilOpen cs

/-- Drop characters until the first `'}'` (the suffix keeps the brace). -/
def dropUntilClose : List Char → List Char
  | [] => []
  | c :: cs => if c == '}' then c :: cs else dropUntilClose cs

/-- Model of `text.match(/\x7b[\s\S]*\x7d/)`: the greedy match runs from
the first `'{'` of the text to the last `'}'`, provided the latter comes
after the former; otherwise there is no match. -/
def jsonMatch (text : String) : Option String :=
  let fromOpen := dropUntilOpen text.data
  let upToClose := (dropUntilClose fromOpen.reverse).reverse
  match upToClose with
  | [] => none
  | l => some ⟨l⟩

/-- JSON whitespace accepted between tokens by `JSON.parse`. -/
def jsonWs (c : Char) : Bool := c == ' ' || c == '\t' || c == '\n' || c == '\r'

/-- Skip JSON whitespace. -/
def skipWs : List Char → List Char
  | [] => []
  | c :: cs => if jsonWs c then skipWs cs else c :: cs

/-- Numeric value of a decimal digit character. -/
def digitVal (c : Char) : Nat := c.toNat - '0'.toNat

/-- Natural number denoted by a list of decimal digit characters. -/
def natOfDigits (ds : List Char) : Nat :=
  ds.foldl (fun n c => n * 10 + digitVal c) 0

/-- Computable `(10 : ℚ) ^ e` for an integer exponent. -/
def pow10 (e : Int) : ℚ :=
  if 0 ≤ e then (10 : ℚ) ^ e.toNat else ((10 : ℚ) ^ (-e).toNat)⁻¹

/-- Value of a hexadecimal digit, if it is one (code-point arithmetic). -/
def hexVal (c : Char) : Option Nat :=
  let n := c.toNat
  if 48 ≤ n && n ≤ 57 then some (n - 48)
  else if 97 ≤ n && n ≤ 102 then some (n - 87)
  else if 65 ≤ n && n ≤ 70 then some (n - 55)
  else none

/-- Parse a JSON number (after the grammar of `JSON.parse`: optional minus,
integer part without leading zeros, optional fraction, optional exponent). -/
def parseJsonNumber (cs : List Char) : Option (ℚ × List Char) :=
  let signed : Bool × List Char :=
    match cs with
    | '-' :: t => (true, t)
    | _ => (false, cs)
  match List.span Char.isDigit signed.2 with
  | ([], _) => none
  | (ds, afterInt) =>
    if ds.length > 1 && ds.head? == some '0' then none
    else
      let intPart : ℚ := (natOfDigits ds : ℚ)
      let fracStep : Option (ℚ × List Char) :=
        match afterInt with
        | '.' :: t =>
          match List.span Char.isDigit t with
          | ([], _) => none
          | (fds, rest) =>
            some (intPart + (natOfDigits fds : ℚ) * pow10 (-(fds.length : Int)), rest)
        | _ => some (intPart, afterInt)
      match fracStep with
      | none => none
      | some (base, afterFrac) =>
        let expStep : Option (ℚ × List Char) :=
          match afterFrac with
          | 'e' :: t | 'E' :: t =>
            let esigned : Bool × List Char :=
              match t with
              | '+' :: t2 => (false, t2)
              | '-' :: t2 => (true, t2)
              | _ => (false, t)
            match List.span Char.isDigit esigned.2 with
            | ([], _) => none
            | (eds, rest) =>
              let e : Int := if esigned.1 then -(natOfDigits eds : Int) else (natOfDigits eds : Int)
              some (base * pow10 e, rest)
          | _ => some (base, afterFrac)
        match expStep with
        | none => none
        | some (q, rest) => some (if signed.1 then -q else q, rest)

mutual

/-- Parse one JSON value; `fuel` strictly exceeds the number of remaining
characters, so it never runs out on a genuine input. -/
def parseJsonValue : Nat → List Char → Option (JsonValue × List Char)
  | 0, _ => none
  | fuel + 1, cs =>
    match skipWs cs with
    | [] => none
    | c :: cs1 =>
      if c == '{' then
        match skipWs cs1 with
        | '}' :: rest => some (.obj [], rest)
        | cs2 => (parseJsonMembers fuel cs2).map (fun r => (.obj r.1, r.2))
      else if c == '[' then
        match skipWs cs1 with
        | ']' :: rest => some (.arr [], rest)
        | cs2 => (parseJsonElems fuel cs2).map (fun r => (.arr r.1, r.2))
      else if c == '"' then
        (parseJsonString fuel cs1).map (fun r => (.str r.1, r.2))
      else if c == 't' then
        match cs1 with
        | 'r' :: 'u' :: 'e' :: rest => some (.bool true, rest)
        | _ => none
      else if c == 'f' then
        match cs1 with
        | 'a' :: 'l' :: 's' :: 'e' :: rest => some (.bool false, rest)
        | _ => none
      else if c == 'n' then
        match cs1 with
        | 'u' :: 'l' :: 'l' :: rest => some (.null, rest)
        | _ => none
      else
        (parseJsonNumber (c :: cs1)).map (fun r => (.num r.1, r.2))

/-- Parse the members of a JSON object after its `'{'` (at least one). -/
def parseJsonMembers : Nat → List Char → Option (List (String × JsonValue) × List Char)
  | 0, _ => none
  | fuel + 1, cs =>
    match skipWs cs with
    | '"' :: cs1 =>
      match parseJsonString fuel cs1 with
      | none => none
      | some (key, cs2) =>
        match skipWs cs2 with
        | ':' :: cs3 =>
          match parseJsonValue fuel cs3 with
          | none => none
          | some (v, cs4) =>
            match skipWs cs4 with
            | ',' :: cs5 => (parseJsonMembers fuel cs5).map (fun r => ((key, v) :: r.1, r.2))
            | '}' :: cs5 => some ([(key, v)], cs5)
            | _ => none
        | _ => none
    | _ => none

/-- Parse the elements of a JSON array after its `'['` (at least one). -/
def parseJsonElems : Nat → List Char → Option (List JsonValue × List Char)
  | 0, _ => none
  | fuel + 1, cs =>
    match parseJsonValue fuel cs with
    | none => none
    | some (v, cs1) =>
      match skipWs cs1 with
      | ',' :: cs2 => (parseJsonElems fuel cs2).map (fun r => (v :: r.1, r.2))
      | ']' :: cs2 => some ([v], cs2)
      | _ => none

/-- Parse the body of a JSON string after its opening quote, handling the
escape sequences `JSON.parse` accepts. -/
def parseJsonString : Nat → List Char → Option (String × List Char)
  | 0, _ => none
  | fuel + 1, cs =>
    match cs with
    | [] => none
    | c :: cs1 =>
      if c == '"' then some ("", cs1)
      else if c == '\\' then
        match cs1 with
        | [] => none
        | e :: cs2 =>
          let simpleEsc : Option Char :=
            if e == '"' then some '"'
            else if e == '\\' then some '\\'
            else if e == '/' then some '/'
            else if e == 'b' then some (Char.ofNat 8)
            else if e == 'f' then some (Char.ofNat 12)
            else if e == 'n' then some '\n'
            else if e == 'r' then some '\r'
            else if e == 't' then some '\t'
            else none
          match simpleEsc with
          | some ch =>
            (parseJsonString fuel cs2).map (fun r => (String.mk (ch :: r.1.data), r.2))
          | none =>
            if e == 'u' then
              match cs2 with
              | h1 :: h2 :: h3 :: h4 :: cs3 =>
                match hexVal h1, hexVal h2, hexVal h3, hexVal h4 with
                | some v1, some v2, some v3, some v4 =>
                  let code := ((v1 * 16 + v2) * 16 + v3) * 16 + v4
                  (parseJsonString fuel cs3).map
                    (fun r => (String.mk (Char.ofNat code :: r.1.data), r.2))
                | _, _, _, _ => none
              | _ => none
            else none
      else if c.toNat < 32 then none
      else (parseJsonString fuel cs1).map (fun r => (String.mk (c :: r.1.data), r.2))

end

/-- Model of `JSON.parse`: `none` is a thrown `SyntaxError`. The whole
input must be consumed up to trailing whitespace. -/
def jsonParse (s : String) : Option JsonValue :=
  match parseJsonValue (s.data.length + 1) s.data with
  | some (v, rest) => if skipWs rest == [] then some v else none
  | none => none

/-- Runtime shape of the `EvaluationResult` record built by the provider
adapters; after `JSON.parse` the two fields can carry any JS value, so
they are modelled as `JsonValue` (well-typed paths keep them strings). -/
structure EvaluationResult where
  verdict : JsonValue
  reasoning : JsonValue

/-- Model of `parseEvaluationResult` — identical in the OpenAI, Anthropic
and Gemini providers (`providers/openai.ts`, `providers/anthropic.ts`,
`providers/gemini.ts`): try the greedy brace match and `JSON.parse`; a
parse exception is caught and yields inconclusive with the raw text; with
no brace match fall back to keyword scanning of the lowercased text. -/
def parseEvaluationResult (text : String) : EvaluationResult :=
  match jsonMatch text with
  | some m =>
    match jsonParse m with
    | some parsed =>
      { verdict := jsOrDefault (getField parsed "verdict") (.str "inconclusive")
        reasoning := jsOrDefault (getField parsed "reasoning") (.str text) }
    | none => { verdict := .str "inconclusive", reasoning := .str text }
  | none =>
    let lowerText := jsToLower text
    if strHas lowerText "pass" || strHas lowerText "correct" || strHas lowerText "good" then
      { verdict := .str "pass", reasoning := .str text }
    else if strHas lowerText "fail" || strHas lowerText "incorrect" || strHas lowerText "bad" then
      { verdict := .str "fail", reasoning := .str text }
    else
      { verdict := .str "inconclusive", reasoning := .str text }

/-! JS stringification: template-literal coercion (`String(v)`) and
`JSON.stringify`, both compact and with indent 2, as used by the prompt
builder. -/

/-- Decimal rendering of a rational; exact for integers, which is the only
case the pipeline can reach with well-typed data (non-integer rationals
render as a fraction — an approximation of JS float printing that no
claim observes). -/
def ratToString (q : ℚ) : String :=
  if q.den == 1 then toString q.num else toString q.num ++ "/" ++ toString q.den

/-- Hexadecimal digit character for a value below 16. -/
def hexDigit (n : Nat) : Char :=
  if n < 10 then Char.ofNat ('0'.toNat + n) else Char.ofNat ('a'.toNat + (n - 10))

/-- Escape one character for a JSON string literal. -/
def escapeJsonChar (c : Char) : List Char :=
  if c == '"' then ['\\', '"']
  else if c == '\\' then ['\\', '\\']
  else if c == '\n' then ['\\', 'n']
  else if c == '\r' then ['\\', 'r']
  else if c == '\t' then ['\\', 't']
  else if c == Char.ofNat 8 then ['\\', 'b']
  else if c == Char.ofNat 12 then ['\\', 'f']
  else if c.toNat < 32 then
    ['\\', 'u', '0', '0', hexDigit (c.toNat / 16), hexDigit (c.toNat % 16)]
  else [c]

/-- Quote and escape a string as a JSON string literal. -/
def quoteJson (s : String) : String :=
  ⟨'"' :: (s.data.map escapeJsonChar).flatten ++ ['"']⟩

mutual

/-- Model of compact `JSON.stringify(v)` (no indent argument). -/
def jsonStringifyC : JsonValue → String
  | .null => "null"
  | .bool true => "true"
  | .bool false => "false"
  | .num q => ratToString q
  | .str s => quoteJson s
  | .arr xs => "[" ++ jsonStringifyElemsC xs ++ "]"
  | .obj fs => "\x7b" ++ jsonStringifyFieldsC fs ++ "\x7d"

/-- Comma-joined compact renderings of array elements. -/
def jsonStringifyElemsC : List JsonValue → String
  | [] => ""
  | [x] => jsonStringifyC x
  | x :: y :: xs => jsonStringifyC x ++ "," ++ jsonStringifyElemsC (y :: xs)

/-- Comma-joined compact renderings of object members. -/
def jsonStringifyFieldsC : List (String × JsonValue) → String
  | [] => ""
  | [(k, v)] => quoteJson k ++ ":" ++ jsonStringifyC v
  | (k, v) :: f :: fs => quoteJson k ++ ":" ++ jsonStringifyC v ++ "," ++ jsonStringifyFieldsC (f :: fs)

end

/-- Indentation of `n` spaces. -/
def indentN (n : Nat) : String := ⟨List.replicate n ' '⟩

mutual

/-- Model of `JSON.stringify(v, null, 2)` at nesting `level`. -/
def jsonStringifyP : Nat → JsonValue → String
  | _, .null => "null"
  | _, .bool true => "true"
  | _, .bool false => "false"
  | _, .num q => ratToString q
  | _, .str s => quoteJson s
  | _, .arr [] => "[]"
  | level, .arr (x :: xs) =>
    "[\n" ++ jsonStringifyElemsP (level + 1) (x :: xs) ++ "\n" ++ indentN (level * 2) ++ "]"
  | _, .obj [] => "\x7b\x7d"
  | level, .obj (f :: fs) =>
    "\x7b\n" ++ jsonStringifyFieldsP (level + 1) (f :: fs) ++ "\n" ++ indentN (level * 2) ++ "\x7d"

/-- Indented, comma-and-newline-joined renderings of array elements. -/
def jsonStringifyElemsP : Nat → List JsonValue → String
  | _, [] => ""
  | level, [x] => indentN (level * 2) ++ jsonStringifyP level x
  | level, x :: y :: xs =>
    indentN (level * 2) ++ jsonStringifyP level x ++ ",\n" ++ jsonStringifyElemsP level (y :: xs)

/-- Indented, comma-and-newline-joined renderings of object members. -/
def jsonStringifyFieldsP : Nat → List (String × JsonValue) → String
  | _, [] => ""
  | level, [(k, v)] => indentN (level * 2) ++ quoteJson k ++ ": " ++ jsonStringifyP level v
  | level, (k, v) :: f :: fs =>
    indentN (level * 2) ++ quoteJson k ++ ": " ++ jsonStringifyP level v ++ ",\n" ++
      jsonStringifyFieldsP level (f :: fs)

end

mutual

/-- Model of JS string coercion `String(v)` / template-literal interpolation. -/
def jsToString : JsonValue → String
  | .null => "null"
  | .bool true => "true"
  | .bool false => "false"
  | .num q => ratToString q
  | .str s => s
  | .arr xs => jsArrayToString xs
  | .obj _ => "[object Object]"

/-- JS `Array.prototype.toString`: comma-join, with `null` elements as "". -/
def jsArrayToString : List JsonValue → String
  | [] => ""
  | [x] => jsElemToString x
  | x :: y :: xs => jsElemToString x ++ "," ++ jsArrayToString (y :: xs)

/-- One array element under `Array.prototype.join`. -/
def jsElemToString : JsonValue → String
  | .null => ""
  | .bool true => "true"
  | .bool false => "false"
  | .num q => ratToString q
  | .str s => s
  | .arr xs => jsArrayToString xs
  | .obj _ => "[object Object]"

end

/-! Data model: the fragments of `database-types.ts` / `api-types.ts` the
pipeline uses. -/

/-- Attachment row (`database-types.ts`): `type?: string | null` collapses
`undefined` and `null` into `none`, both being falsy the same way. -/
structure Attachment where
  attachment_id : String
  answer_id : String
  url : String
  type : Option String
  created_at : Option String

/-- EvaluationContext (`api-types.ts`): the context of one evaluation; it
carries no submission-metadata field. `answerData` is `Record<string,
any>` at the type level but arbitrary JSON at runtime. -/
structure EvalContext where
  questionText : String
  questionType : String
  answerData : JsonValue
  attachments : Option (List Attachment)

/-- Field-inclusion flags of `JudgeConfigMetadata` (`api-types.ts`); the
type has exactly these four flags — the extra `submissionMetadata: true`
property the executor passes is outside the type and never read by
`PromptBuilder`. -/
structure IncludedFields where
  questionText : Bool
  questionType : Bool
  answerData : Bool
  attachments : Bool

/-- JudgeConfigMetadata (`api-types.ts`). -/
structure JudgeConfigMetadata where
  includedFields : IncludedFields

/-- Judge row (`database-types.ts`); `provider` is kept as a raw string
because the executor casts it with `as any` before the registry lookup. -/
structure Judge where
  judge_id : String
  name : String
  provider : String
  model : String
  prompt : String
  is_active : Option Bool
  created_at : Option String

/-! Prompt builder (`app/lib/llm/prompt-builder.ts`). -/

/-- Model of `attachment.type || dflt`. -/
def typeOrElse (t : Option String) (dflt : String) : String :=
  match t with
  | some s => if s == "" then dflt else s
  | none => dflt

/-- Model of `PromptBuilder.formatAnswerData`: strings pass through,
arrays comma-join their elements (objects JSON-stringified), objects are
pretty-printed, anything else is string-coerced. -/
def formatAnswerData (answerData : JsonValue) : String :=
  match answerData with
  | .str s => s
  | .arr items =>
    String.intercalate ", " (items.map (fun item =>
      match item with
      | .obj fs => jsonStringifyC (.obj fs)
      | .arr xs => jsonStringifyC (.arr xs)
      | .null => jsonStringifyC .null
      | v => jsToString v))
  | .null => jsonStringifyP 0 .null
  | .obj fs => jsonStringifyP 0 (.obj fs)
  | v => jsToString v

/-- Model of `PromptBuilder.formatAttachments`: one line per attachment,
`<type or "file"> - <url>`, newline-joined. -/
def formatAttachments (attachments : List Attachment) : String :=
  String.intercalate "\n"
    (attachments.map (fun a => typeOrElse a.type "file" ++ " " ++ "- " ++ a.url))

/-- The fixed base instruction block of
`PromptBuilder.getBaseEvaluationInstructions`. -/
def baseEvaluationInstructions : String :=
  "You are an AI judge evaluating submissions. Your role is to assess whether submissions meet the expected criteria.\n\nYou must provide your assessment in the following JSON format:\n\n\x7b\n  \"verdict\": \"pass\" | \"fail\" | \"inconclusive\",\n  \"reasoning\": \"Your detailed explanation of the evaluation decision\"\n\x7d\n\nVerdict Guidelines:\n- \"pass\": The submission meets the expected criteria\n- \"fail\": The submission does not meet the expected criteria\n- \"inconclusive\": Unable to determine due to insufficient information or ambiguity\n\nEvaluation Principles:\n- Provide clear, specific reasoning for your decision\n- Consider the context and any relevant information\n- Be objective and fair in your assessment\n- Follow the specific evaluation criteria provided below\n\nIMPORTANT: You must respond with ONLY the JSON object, no additional text before or after."

/-- Model of `PromptBuilder.buildSystemPrompt`: the judge's custom prompt
followed by the fixed base block, unconditionally. -/
def buildSystemPrompt (judgeCustomPrompt : String) : String :=
  judgeCustomPrompt ++ "\n\n" ++ baseEvaluationInstructions

/-- The fixed closing instruction appended to every user prompt. -/
def closingInstruction : String :=
  "\n\nPlease evaluate the above submission according to your criteria and provide your assessment."

/-- Model of `PromptBuilder.buildUserPrompt`: push the enabled sections in
fixed order, join with blank lines, append the closing instruction. -/
def buildUserPrompt (cfg : JudgeConfigMetadata) (context : EvalContext) : String :=
  let sections : List String :=
    (if cfg.includedFields.questionText then ["Question: " ++ context.questionText] else []) ++
    (if cfg.includedFields.questionType then ["Question Type: " ++ context.questionType] else []) ++
    (if cfg.includedFields.answerData then ["Answer: " ++ formatAnswerData context.answerData] else []) ++
    (match cfg.includedFields.attachments, context.attachments with
     | true, some (a :: rest) => ["Attachments: " ++ formatAttachments (a :: rest)]
     | _, _ => [])
  String.intercalate "\n\n" sections ++ closingInstruction

/-- Attachment descriptor of the returned `EvaluationPrompt`. -/
structure PromptAttachment where
  url : String
  type : String
  name : String

/-- EvaluationPrompt (`llm/types.ts`), minus the echoed context. -/
structure EvaluationPrompt where
  systemPrompt : String
  userPrompt : String
  attachments : Option (List PromptAttachment)

/-- Model of `PromptBuilder.buildPrompt`. -/
def buildPrompt (judgeCustomPrompt : String) (cfg : JudgeConfigMetadata)
    (context : EvalContext) : EvaluationPrompt :=
  { systemPrompt := buildSystemPrompt judgeCustomPrompt
    userPrompt := buildUserPrompt cfg context
    attachments := context.attachments.map (List.map (fun a =>
      { url := a.url, type := typeOrElse a.type "", name := typeOrElse a.type "file" })) }

/-! Provider registry (`llm/client.ts`) and factory (`provider-factory.ts`). -/

/-- The three provider adapter classes of `provider-factory.ts`. -/
inductive ProviderId where
  | openai
  | anthropic
  | gemini

/-- Process environment slice read by `LLMClient.initializeProviders`. -/
structure Env where
  openaiKey : Option String
  anthropicKey : Option String
  geminiKey : Option String

/-- JS truthiness of `process.env.X` (undefined or empty string is falsy). -/
def keyTruthy : Option String → Bool
  | none => false
  | some s => !(s == "")

/-- Model of the `providers` map built by
`LLMClient.initializeProviders`: one entry per credential present in the
environment, in the fixed insertion order openai, anthropic, gemini. -/
def initializeProviders (env : Env) : List (String × ProviderId) :=
  (if keyTruthy env.openaiKey then [("openai", ProviderId.openai)] else []) ++
  (if keyTruthy env.anthropicKey then [("anthropic", ProviderId.anthropic)] else []) ++
  (if keyTruthy env.geminiKey then [("gemini", ProviderId.gemini)] else [])

/-- Model of `this.providers.get(provider)`. -/
def providersGet (env : Env) (provider : String) : Option ProviderId :=
  ((initializeProviders env).find? (fun p => p.1 == provider)).map (fun p => p.2)

/-- Model of `LLMClient.getProvider`: throws when the identifier is not in
the map (missing credential or unknown identifier). -/
def getProvider (env : Env) (provider : String) : Except String ProviderId :=
  match providersGet env provider with
  | some inst => .ok inst
  | none => .error ("Provider " ++ provider ++ " is not configured or not available")

/-- Model of `LLMClient.isProviderAvailable`. -/
def isProviderAvailable (env : Env) (provider : String) : Bool :=
  (providersGet env provider).isSome

/-- Model of the factory's `getAvailableProviders`:
`Object.keys(PROVIDER_CONFIGS)`, a static list independent of the
environment; `LLMClient.getAvailableProviders` returns it unchanged. -/
def getAvailableProviders : List String := ["openai", "anthropic", "gemini"]

/-- Model allow-list of `PROVIDER_CONFIGS[p].models` in
`provider-factory.ts` (unknown provider: `undefined`, modelled as `[]`,
making `validateModel` return `false` as the source's ternary does). -/
def factoryModels : String → List String
  | "openai" => ["gpt-4", "gpt-4-turbo", "gpt-3.5-turbo", "gpt-4o", "gpt-4o-mini"]
  | "anthropic" =>
    ["claude-3-5-sonnet-20241022", "claude-3-5-haiku-20241022", "claude-3-opus-20240229"]
  | "gemini" => ["gemini-2.0-flash-exp", "gemini-1.5-pro", "gemini-1.5-flash", "gemini-1.0-pro"]
  | _ => []

/-- Model of the factory's `validateModel`. -/
def validateModel (provider model : String) : Bool :=
  (factoryModels provider).contains model

/-- Model of `LLMClient.validateProviderConfig`, which delegates to the
factory's `validateModel`. -/
def validateProviderConfig (provider model : String) : Bool :=
  validateModel provider model

/-- Allow-list of `OpenAIProvider.validateModel`. -/
def openaiValidModels : List String :=
  ["gpt-4", "gpt-4-turbo", "gpt-4o", "gpt-4o-mini", "gpt-3.5-turbo"]

/-- Allow-list of `AnthropicProvider.validateModel`. -/
def anthropicValidModels : List String :=
  ["claude-3-5-sonnet-20241022", "claude-3-5-haiku-20241022", "claude-3-opus-20240229",
   "claude-3-sonnet-20240229", "claude-3-haiku-20240307"]

/-- Allow-list of `GeminiProvider.validateModel`. -/
def geminiValidModels : List String :=
  ["gemini-2.0-flash-exp", "gemini-1.5-pro", "gemini-1.5-flash", "gemini-1.0-pro"]

/-- Model of each adapter's `validateModel`. -/
def adapterValidateModel : ProviderId → String → Bool
  | .openai, m => openaiValidModels.contains m
  | .anthropic, m => anthropicValidModels.contains m
  | .gemini, m => geminiValidModels.contains m

/-! Provider adapters (`providers/openai.ts`, `providers/anthropic.ts`,
`providers/gemini.ts`).  The underlying `generateText` SDK call is an
external effect; it is modelled by an oracle from the call's parameter
record to either a thrown error message or the raw model text. -/

/-- LLMRequest (`llm/types.ts`); the `context` field is represented by the
attachments, the only part of it the adapters read. -/
structure LLMRequest where
  systemPrompt : String
  userPrompt : String
  contextAttachments : Option (List Attachment)
  model : String
  temperature : Option ℚ
  maxTokens : Option Nat

/-- Parameter record of one underlying `generateText` call. -/
structure ModelCall where
  providerName : String
  model : String
  system : String
  prompt : String
  temperature : ℚ
  maxOutputTokens : Option Nat

/-- Outcome of one underlying model call: a thrown error's message, or
the raw response text. -/
abbrev CallOracle := ModelCall → Except String String

/-- LLMResponse (`llm/types.ts`); the usage counters are not modelled —
nothing in the pipeline reads them. -/
structure LLMResponse where
  result : EvaluationResult

/-- Model of `att.type?.startsWith("image/")` being truthy. -/
def isImageType : Option String → Bool
  | some t => listPre "image/".data t.data
  | none => false

/-- Image attachment URLs, newline-joined, as each adapter builds them. -/
def imageUrls (atts : List Attachment) : String :=
  String.intercalate "\n" ((atts.filter (fun a => isImageType a.type)).map (fun a => a.url))

/-- Shared prompt-content construction of the three adapters: append the
cache-busting marker, and, when the context carries attachments (all
three adapters declare vision support), append the image URLs. -/
def promptContent (req : LLMRequest) (cacheId : String) : String :=
  let withBuster := req.userPrompt ++ "\n\n<!-- Request ID: " ++ cacheId ++ " -->"
  match req.contextAttachments with
  | some (a :: rest) => withBuster ++ "\n\nAttached images:\n" ++ imageUrls (a :: rest)
  | _ => withBuster

/-- The `generateText` parameter record built by `OpenAIProvider.evaluate`. -/
def openaiCall (req : LLMRequest) (cacheId : String) : ModelCall :=
  { providerName := "openai", model := req.model, system := req.systemPrompt,
    prompt := promptContent req cacheId,
    temperature := req.temperature.getD (7 / 10),
    maxOutputTokens := some (req.maxTokens.getD 1000) }

/-- The `generateText` parameter record built by `AnthropicProvider.evaluate`. -/
def anthropicCall (req : LLMRequest) (cacheId : String) : ModelCall :=
  { providerName := "anthropic", model := req.model, system := req.systemPrompt,
    prompt := promptContent req cacheId,
    temperature := req.temperature.getD (7 / 10),
    maxOutputTokens := some (req.maxTokens.getD 1000) }

/-- The `generateText` parameter record built by `GeminiProvider.evaluate`:
it passes no `maxOutputTokens` at all. -/
def geminiCall (req : LLMRequest) (cacheId : String) : ModelCall :=
  { providerName := "gemini", model := req.model, system := req.systemPrompt,
    prompt := promptContent req cacheId,
    temperature := req.temperature.getD (7 / 10),
    maxOutputTokens := none }

/-- Model of `OpenAIProvider.evaluate`: call, wrap any thrown error, parse
the raw text. -/
def openaiEvaluate (oracle : CallOracle) (req : LLMRequest) (cacheId : String) :
    Except String LLMResponse :=
  match oracle (openaiCall req cacheId) with
  | .error m => .error ("OpenAI evaluation failed: " ++ m)
  | .ok text => .ok { result := parseEvaluationResult text }

/-- Model of `AnthropicProvider.evaluate`. -/
def anthropicEvaluate (oracle : CallOracle) (req : LLMRequest) (cacheId : String) :
    Except String LLMResponse :=
  match oracle (anthropicCall req cacheId) with
  | .error m => .error ("Anthropic evaluation failed: " ++ m)
  | .ok text => .ok { result := parseEvaluationResult text }

/-- Model of `GeminiProvider.evaluate`. -/
def geminiEvaluate (oracle : CallOracle) (req : LLMRequest) (cacheId : String) :
    Except String LLMResponse :=
  match oracle (geminiCall req cacheId) with
  | .error m => .error ("Gemini evaluation failed: " ++ m)
  | .ok text => .ok { result := parseEvaluationResult text }

/-- Dynamic dispatch `provider.evaluate(...)` on the instance returned by
the registry. -/
def providerEvaluate : ProviderId → CallOracle → LLMRequest → String → Except String LLMResponse
  | .openai, oracle, req, cid => openaiEvaluate oracle req cid
  | .anthropic, oracle, req, cid => anthropicEvaluate oracle req cid
  | .gemini, oracle, req, cid => geminiEvaluate oracle req cid

/-! Evaluation executor (`services/evaluation-executor.ts`). -/

/-- JS whitespace trimmed by `String.prototype.trim` (common subset). -/
def jsWsChar (c : Char) : Bool :=
  c == ' ' || c == '\t' || c == '\n' || c == '\r' || c == Char.ofNat 11 || c == Char.ofNat 12

/-- Model of `s.trim()`. -/
def jsTrim (s : String) : String :=
  ⟨((s.data.dropWhile jsWsChar).reverse.dropWhile jsWsChar).reverse⟩

/-- The `validVerdicts` array of `parseEvaluationResponse`. -/
def validVerdicts : List String := ["pass", "fail", "inconclusive"]

/-- Model of `validVerdicts.includes(result.verdict)` under SameValueZero:
a non-string runtime verdict never equals a string entry. -/
def includesStr (l : List String) (v : JsonValue) : Bool :=
  match v with
  | .str s => l.contains s
  | _ => false

/-- Model of the executor's `parseEvaluationResponse`: repair invalid
verdicts, replace empty/whitespace reasoning; a truthy non-string
reasoning makes `result.reasoning.trim()` throw a TypeError, modelled as
`Except.error` (it is caught by `executeEvaluation`'s catch-all). -/
def parseEvaluationResponse (result : EvaluationResult) : Except String EvaluationResult :=
  if !(includesStr validVerdicts result.verdict) then
    .ok { verdict := .str "inconclusive",
          reasoning := .str ("Invalid verdict received: " ++ jsToString result.verdict ++ ". " ++
            (if truthy result.reasoning then jsToString result.reasoning
             else "No reasoning provided.")) }
  else
    match result.reasoning with
    | .str s =>
      if s == "" || jsTrim s == "" then
        .ok { verdict := result.verdict,
              reasoning := .str "No detailed reasoning provided by the judge." }
      else .ok result
    | v =>
      if truthy v then .error "result.reasoning.trim is not a function"
      else .ok { verdict := result.verdict,
                 reasoning := .str "No detailed reasoning provided by the judge." }

/-- The field-inclusion configuration hard-coded in `executeEvaluation`
(the additional `submissionMetadata: true` property it passes is not part
of `JudgeConfigMetadata` and is never read). -/
def executorIncludedFields : JudgeConfigMetadata :=
  { includedFields := { questionText := true, questionType := true,
                        answerData := true, attachments := true } }

/-- The uniform error result of `executeEvaluation`'s catch-all. -/
def evaluationFailed (message : String) : EvaluationResult :=
  { verdict := .str "inconclusive", reasoning := .str ("Evaluation failed: " ++ message) }

/-- The LLMRequest literal `executeEvaluation` passes to the adapter:
prompt pair from the builder, the context's attachments, the judge's
model, temperature 0.8 and maxTokens 1000. -/
def executorRequest (judge : Judge) (context : EvalContext) : LLMRequest :=
  { systemPrompt := (buildPrompt judge.prompt executorIncludedFields context).systemPrompt
    userPrompt := (buildPrompt judge.prompt executorIncludedFields context).userPrompt
    contextAttachments := context.attachments
    model := judge.model
    temperature := some (4 / 5)
    maxTokens := some 1000 }

/-- Model of `executeEvaluation` (`evaluation-executor.ts`): resolve the
provider, build the prompt and request (`executorRequest`), call the
adapter, validate the response; any exception anywhere is caught and
becomes an inconclusive result carrying the error's message. -/
def executeEvaluation (env : Env) (oracle : CallOracle) (cacheId : String)
    (judge : Judge) (context : EvalContext) : EvaluationResult :=
  match getProvider env judge.provider with
  | .error m => evaluationFailed m
  | .ok inst =>
    match providerEvaluate inst oracle (executorRequest judge context) cacheId with
    | .error m => evaluationFailed m
    | .ok response =>
      match parseEvaluationResponse response.result with
      | .error m => evaluationFailed m
      | .ok r => r

/-! Evaluation orchestrator (the `runEvaluations` service).  Database
reads and writes are external effects, modelled by oracles that give each
call site its own outcome.  The judge table is read twice per task — once
while grouping by provider, once inside the rate-limited slot (caching is
disabled in the source) — and the two reads are independently fallible,
so `groupReads` and `slotReads` are separate per-task outcomes.  The
p-limit rate limiter only bounds in-flight concurrency and the code
aggregates results in promise-array order, so execution is modelled in
that order.  The per-call `crypto.randomUUID()` cache marker is an input
(`cacheIds`). -/

/-- EvaluationTask (`rate-limiter.ts`): one (answer, judge) work item with
denormalized question-template data. -/
structure EvaluationTask where
  answer_id : String
  judge_id : String
  answerData : JsonValue
  question_template_id : String
  questionType : String
  questionText : String

/-- One `{task, error}` entry of the summary's failure list. -/
structure TaskError where
  task : EvaluationTask
  error : String

/-- EvaluationSummary (`rate-limiter.ts`). -/
structure EvaluationSummary where
  total : Nat
  completed : Nat
  failed : Nat
  errors : List TaskError

/-- Outcome of one `judges` table `.single()` read inside `getJudge`:
`Sum.inl` is a failed or empty read carrying `judgeError?.message`. -/
abbrev JudgeRead := Sum (Option String) Judge

/-- Outcome of the `evaluations` insert: `some` is the insert error's
message. -/
abbrev StoreDb := String → String → EvaluationResult → Option String

/-- Model of `getJudge` applied to the outcome of one read.  Caching is
disabled in the source, so every call performs a fresh, independently
fallible database read; each call site below consumes its own
`JudgeRead`.  A failed read is wrapped in the fetch-failure message
(interpolating a missing message as "undefined", as the template literal
does). -/
def getJudge (read : JudgeRead) (judgeId : String) : Except String Judge :=
  match read with
  | .inl m => .error ("Failed to fetch judge " ++ judgeId ++ ": " ++ m.getD "undefined")
  | .inr j => .ok j

/-- Model of `storeEvaluationResult`: wrap a failed insert in the
storage-failure message. -/
def storeEvaluationResult (storeDb : StoreDb) (answerId judgeId : String)
    (result : EvaluationResult) : Except String Unit :=
  match storeDb answerId judgeId result with
  | some m => .error ("Failed to store evaluation result: " ++ m)
  | none => .ok ()

/-- The EvaluationContext assembled for one task inside the rate-limited
slot (attachments default to `[]` when the map has no entry, already
reflected by the total `attachmentsByAnswer` function). -/
def taskContext (attachmentsByAnswer : String → List Attachment)
    (task : EvaluationTask) : EvalContext :=
  { questionText := task.questionText
    questionType := task.questionType
    answerData := task.answerData
    attachments := some ((attachmentsByAnswer task.answer_id).map (fun att =>
      { attachment_id := att.attachment_id, answer_id := att.answer_id, url := att.url,
        type := att.type, created_at := att.created_at })) }

/-- Append a task to its provider's bucket, creating the bucket at the end
on first sight — the insertion-order behaviour of the JS `Map`. -/
def insertTask (acc : List (String × List EvaluationTask)) (provider : String)
    (task : EvaluationTask) : List (String × List EvaluationTask) :=
  match acc with
  | [] => [(provider, [task])]
  | (p, ts) :: rest =>
    if p == provider then (p, ts ++ [task]) :: rest
    else (p, ts) :: insertTask rest provider task

/-- Model of `groupTasksByProvider`: fetch each task's judge — one fresh
read per task, whose outcome is `groupReads task` (a failed fetch here
throws out of `executeEvaluations`) — and bucket the task under the
judge's provider. -/
def groupTasksByProvider (groupReads : EvaluationTask → JudgeRead) :
    List EvaluationTask → List (String × List EvaluationTask) →
    Except String (List (String × List EvaluationTask))
  | [], acc => .ok acc
  | task :: rest, acc =>
    match getJudge (groupReads task) task.judge_id with
    | .error m => .error m
    | .ok judge => groupTasksByProvider groupReads rest (insertTask acc judge.provider task)

/-- Settled value of one rate-limited task promise after its `.catch`. -/
structure TaskOutcome where
  success : Bool
  task : EvaluationTask
  error : Option String

/-- The body of one rate-limited slot plus its `.catch`: re-fetch the
judge — a second, independent read whose outcome is `slotReads task` —
assemble the context, run the executor (which never throws), persist; any
thrown error becomes a `success: false` outcome carrying its message. -/
def runTask (env : Env) (oracle : CallOracle) (cacheIds : EvaluationTask → String)
    (slotReads : EvaluationTask → JudgeRead) (storeDb : StoreDb)
    (attachmentsByAnswer : String → List Attachment) (task : EvaluationTask) : TaskOutcome :=
  match getJudge (slotReads task) task.judge_id with
  | .error e => { success := false, task := task, error := some e }
  | .ok judge =>
    let context := taskContext attachmentsByAnswer task
    let result := executeEvaluation env oracle (cacheIds task) judge context
    match storeEvaluationResult storeDb task.answer_id task.judge_id result with
    | .error e => { success := false, task := task, error := some e }
    | .ok _ => { success := true, task := task, error := none }

/-- The aggregation loop over all settled task outcomes. -/
def aggregate (results : List TaskOutcome) (s : EvaluationSummary) : EvaluationSummary :=
  results.foldl
    (fun s r =>
      if r.success then { s with completed := s.completed + 1 }
      else { s with failed := s.failed + 1,
                    errors := s.errors ++ [{ task := r.task, error := r.error.getD "Unknown error" }] })
    s

/-- Model of `executeEvaluations`: group by provider (a judge-fetch
failure here aborts the whole call), run every task, aggregate in
promise-array order. -/
def executeEvaluations (env : Env) (oracle : CallOracle)
    (cacheIds : EvaluationTask → String)
    (groupReads slotReads : EvaluationTask → JudgeRead) (storeDb : StoreDb)
    (tasks : List EvaluationTask) (attachmentsByAnswer : String → List Attachment) :
    Except String EvaluationSummary :=
  match groupTasksByProvider groupReads tasks [] with
  | .error m => .error m
  | .ok groups =>
    let allProviderResults := groups.map (fun g =>
      g.2.map (runTask env oracle cacheIds slotReads storeDb attachmentsByAnswer))
    .ok (aggregate allProviderResults.flatten
      { total := tasks.length, completed := 0, failed := 0, errors := [] })

/-- Outcome of `fetchEvaluationData` (all external reads): a thrown fetch
error, or the built task list with the attachment index. -/
inductive FetchOutcome where
  | err (message : String)
  | ok (tasks : List EvaluationTask) (attachmentsByAnswer : String → List Attachment)

/-- Model of `runEvaluations`: re-throw fetch errors, return the zero
summary for an empty task list, otherwise run the batch. -/
def runEvaluations (env : Env) (oracle : CallOracle)
    (cacheIds : EvaluationTask → String)
    (groupReads slotReads : EvaluationTask → JudgeRead) (storeDb : StoreDb)
    (fetch : FetchOutcome) : Except String EvaluationSummary :=
  match fetch with
  | .err m => .error m
  | .ok tasks attachmentsByAnswer =>
    if tasks.length == 0 then .ok { total := 0, completed := 0, failed := 0, errors := [] }
    else
      executeEvaluations env oracle cacheIds groupReads slotReads storeDb tasks
        attachmentsByAnswer

/-- Derived description of one task's only possible failure under the
orchestrator: an in-slot judge re-fetch error, or a storage-write error
wrapped in the storage-failure message; `none` when the task completes. -/
def taskFailure (env : Env) (oracle : CallOracle) (cacheIds : EvaluationTask → String)
    (slotReads : EvaluationTask → JudgeRead) (storeDb : StoreDb)
    (attachmentsByAnswer : String → List Attachment) (task : EvaluationTask) : Option String :=
  match getJudge (slotReads task) task.judge_id with
  | .error e => some e
  | .ok judge =>
    (storeDb task.answer_id task.judge_id
        (executeEvaluation env oracle (cacheIds task) judge
          (taskContext attachmentsByAnswer task))).map
      (fun m => "Failed to store evaluation result: " ++ m)

/-! Derived definitions used by theorem statements. -/

/-- The `generateText` parameter record the dispatched adapter builds. -/
def adapterCall : ProviderId → LLMRequest → String → ModelCall
  | .openai, req, cid => openaiCall req cid
  | .anthropic, req, cid => anthropicCall req cid
  | .gemini, req, cid => geminiCall req cid

/-- The per-adapter wrapper text prepended to a thrown call error. -/
def adapterErrorLabel : ProviderId → String
  | .openai => "OpenAI evaluation failed: "
  | .anthropic => "Anthropic evaluation failed: "
  | .gemini => "Gemini evaluation failed: "

/-- The credential the registry reads for a provider identifier. -/
def credFor (env : Env) : String → Option String
  | "openai" => env.openaiKey
  | "anthropic" => env.anthropicKey
  | "gemini" => env.geminiKey
  | _ => none

/-- The adapter instance a provider identifier would map to. -/
def pidOf : String → ProviderId
  | "anthropic" => ProviderId.anthropic
  | "gemini" => ProviderId.gemini
  | _ => ProviderId.openai

/-- Whether `getProvider` throws its not-configured error. -/
def getProviderFails (env : Env) (provider : String) : Bool :=
  match getProvider env provider with
  | .error _ => true
  | .ok _ => false

/-- The two models `AnthropicProvider.validateModel` accepts but the
factory's `PROVIDER_CONFIGS.anthropic.models` list omits. -/
def anthropicFactoryMissing : List String :=
  ["claude-3-sonnet-20240229", "claude-3-haiku-20240307"]

/-- Stated from the claim: the five user-prompt sections in the claimed
fixed order — question text, question type, formatted answer data,
formatted submission metadata, formatted attachments — each `none` when
its config flag is off or its data is absent.  The submission-metadata
entry is constantly `none`: `EvaluationContext` carries no metadata
field, so that data is never present. -/
def claimedSections (cfg : JudgeConfigMetadata) (context : EvalContext) : List (Option String) :=
  [ if cfg.includedFields.questionText then some ("Question: " ++ context.questionText) else none,
    if cfg.includedFields.questionType then some ("Question Type: " ++ context.questionType) else none,
    if cfg.includedFields.answerData then some ("Answer: " ++ formatAnswerData context.answerData) else none,
    none,
    match cfg.includedFields.attachments, context.attachments with
    | true, some (a :: rest) => some ("Attachments: " ++ formatAttachments (a :: rest))
    | _, _ => none ]

/-- All grouped tasks, in group order then in-group order — the order the
orchestrator's aggregation loop visits the settled outcomes. -/
def flattenTasks (groups : List (String × List EvaluationTask)) : List EvaluationTask :=
  (groups.map (fun g => g.2)).flatten

/-- The failure-list entry an outcome contributes, if any. -/
def toTaskError (r : TaskOutcome) : Option TaskError :=
  if r.success then none
  else some { task := r.task, error := r.error.getD "Unknown error" }

/-! Concrete fixtures used by witness theorems. -/

/-- Environment with only the OpenAI credential present. -/
def wEnv : Env := { openaiKey := some "sk-test", anthropicKey := none, geminiKey := none }

/-- Environment with no credentials present. -/
def wEnvEmpty : Env := { openaiKey := none, anthropicKey := none, geminiKey := none }

/-- A concrete active OpenAI judge. -/
def wJudge : Judge :=
  { judge_id := "j1", name := "Judge One", provider := "openai", model := "gpt-4o",
    prompt := "Be strict.", is_active := some true, created_at := none }

/-- A concrete evaluation task for `wJudge`. -/
def wTask : EvaluationTask :=
  { answer_id := "a1", judge_id := "j1", answerData := .str "42",
    question_template_id := "q1", questionType := "text",
    questionText := "What is six times seven?" }

/-- A concrete evaluation context. -/
def wContext : EvalContext :=
  { questionText := "Q?", questionType := "text", answerData := .str "A", attachments := none }

/-- Judge reads that all succeed with `wJudge`. -/
def wReadsOk : EvaluationTask → JudgeRead := fun _ => .inr wJudge

/-- Judge reads that all fail with a transient connection error. -/
def wReadsFail : EvaluationTask → JudgeRead := fun _ => .inl (some "connection reset")

/-- A model-call oracle in which every call throws a network error. -/
def wOracleDown : CallOracle := fun _ => .error "network down"

/-- An evaluations table whose inserts succeed. -/
def wStoreOk : StoreDb := fun _ _ _ => none

/-- An evaluations table whose inserts fail. -/
def wStoreFail : StoreDb := fun _ _ _ => some "disk full"

/-- A fixed cache-marker assignment. -/
def wCacheIds : EvaluationTask → String := fun _ => "cid"

/-- C4: on raw model text with no brace-delimited substring the adapter
parser falls back to keyword scanning of the lowercased text — "pass",
"correct" or "good" gives verdict pass; otherwise "fail", "incorrect" or
"bad" gives verdict fail; otherwise inconclusive — and the reasoning is
always the full raw text. -/
theorem keyword_fallback_correct (text : String) (h : jsonMatch text = none) :
    parseEvaluationResult text =
      { verdict := .str
          (if strHas (jsToLower text) "pass" || strHas (jsToLower text) "correct" ||
              strHas (jsToLower text) "good" then "pass"
           else if strHas (jsToLower text) "fail" || strHas (jsToLower text) "incorrect" ||
              strHas (jsToLower text) "bad" then "fail"
           else "inconclusive"),
        reasoning := .str text } := by
  unfold parseEvaluationResult
  rw [h]
  by_cases h1 : (strHas (jsToLower text) "pass" || strHas (jsToLower text) "correct" ||
      strHas (jsToLower text) "good") = true
  · simp [h1]
  · by_cases h2 : (strHas (jsToLower text) "fail" || strHas (jsToLower text) "incorrect" ||
        strHas (jsToLower text) "bad") = true
    · simp [h1, h2]
    · simp [h1, h2]

/-- Witness for C4 at the spec's own scenario text. -/
theorem keyword_fallback_witness :
    jsonMatch "This submission seems fine and correct overall." = none ∧
    parseEvaluationResult "This submission seems fine and correct overall." =
      { verdict := .str "pass",
        reasoning := .str "This submission seems fine and correct overall." } :=
  ⟨rfl, by rw [keyword_fallback_correct "This submission seems fine and correct overall." rfl]; rfl⟩

/-- Counterexample to C3: the text `{"verdict":"pass"} }` contains the
parseable JSON object substring `{"verdict":"pass"}` (with a verdict
field) and contains the keyword "pass", yet the parser returns
inconclusive, not the JSON-derived verdict: the greedy regex match spans
to the *last* brace, `JSON.parse` throws on it, and the catch yields
inconclusive without consulting the inner JSON object or the keywords. -/
theorem parse_priority_counterexample :
    strHas "\x7b\"verdict\":\"pass\"\x7d \x7d" "\x7b\"verdict\":\"pass\"\x7d" = true ∧
    jsonParse "\x7b\"verdict\":\"pass\"\x7d" = some (.obj [("verdict", .str "pass")]) ∧
    strHas (jsToLower "\x7b\"verdict\":\"pass\"\x7d \x7d") "pass" = true ∧
    (parseEvaluationResult "\x7b\"verdict\":\"pass\"\x7d \x7d").verdict = .str "inconclusive" ∧
    (parseEvaluationResult "\x7b\"verdict\":\"pass\"\x7d \x7d").verdict ≠ .str "pass" := by
  refine ⟨rfl, rfl, rfl, rfl, ?_⟩
  intro hcontra
  have hv : (JsonValue.str "inconclusive") = JsonValue.str "pass" := by
    calc JsonValue.str "inconclusive"
        = (parseEvaluationResult "\x7b\"verdict\":\"pass\"\x7d \x7d").verdict := by rfl
      _ = JsonValue.str "pass" := hcontra
  injection hv with hs
  exact absurd hs (by decide)

/-- C3 (amended): JSON extraction is attempted before the keyword
fallback, but on the substring from the first brace to the last brace of
the whole text.  When that substring parses, the result is determined by
the parsed object alone (verdict field, else inconclusive) with the raw
text as fallback reasoning — the keyword scan is never consulted; when it
exists but fails to parse, the caught exception yields inconclusive with
the raw text, again without the keyword scan. -/
theorem parse_priority_amended (text m : String) :
    (∀ parsed, jsonMatch text = some m → jsonParse m = some parsed →
      parseEvaluationResult text =
        { verdict := jsOrDefault (getField parsed "verdict") (.str "inconclusive"),
          reasoning := jsOrDefault (getField parsed "reasoning") (.str text) }) ∧
    (jsonMatch text = some m → jsonParse m = none →
      parseEvaluationResult text = { verdict := .str "inconclusive", reasoning := .str text }) := by
  constructor
  · intro parsed hm hp
    simp only [parseEvaluationResult, hm, hp]
  · intro hm hp
    simp only [parseEvaluationResult, hm, hp]

/-- Witness for C3 (amended) at the spec's own scenario text. -/
theorem parse_priority_amended_witness :
    jsonMatch "Here is my answer: \x7b\"verdict\":\"pass\",\"reasoning\":\"Looks correct\"\x7d"
      = some "\x7b\"verdict\":\"pass\",\"reasoning\":\"Looks correct\"\x7d" ∧
    jsonParse "\x7b\"verdict\":\"pass\",\"reasoning\":\"Looks correct\"\x7d"
      = some (.obj [("verdict", .str "pass"), ("reasoning", .str "Looks correct")]) ∧
    parseEvaluationResult "Here is my answer: \x7b\"verdict\":\"pass\",\"reasoning\":\"Looks correct\"\x7d"
      = { verdict := .str "pass", reasoning := .str "Looks correct" } :=
  ⟨rfl, rfl, by
    rw [(parse_priority_amended
      "Here is my answer: \x7b\"verdict\":\"pass\",\"reasoning\":\"Looks correct\"\x7d"
      "\x7b\"verdict\":\"pass\",\"reasoning\":\"Looks correct\"\x7d").1
      (.obj [("verdict", .str "pass"), ("reasoning", .str "Looks correct")]) rfl rfl]
    rfl⟩

/-- C10: when the brace match parses as JSON, a missing or falsy
reasoning field makes the entire raw text the reasoning and a missing or
falsy verdict field becomes "inconclusive"; hence the JSON path never
returns an empty-string reasoning when the raw text is non-empty. -/
theorem json_path_defaults (text m : String) (parsed : JsonValue)
    (hm : jsonMatch text = some m) (hp : jsonParse m = some parsed) :
    (getField parsed "reasoning" = none ∨
        (∃ v, getField parsed "reasoning" = some v ∧ truthy v = false) →
      (parseEvaluationResult text).reasoning = .str text) ∧
    (getField parsed "verdict" = none ∨
        (∃ v, getField parsed "verdict" = some v ∧ truthy v = false) →
      (parseEvaluationResult text).verdict = .str "inconclusive") ∧
    (text ≠ "" → (parseEvaluationResult text).reasoning ≠ .str "") := by
  have hres : parseEvaluationResult text =
      { verdict := jsOrDefault (getField parsed "verdict") (.str "inconclusive"),
        reasoning := jsOrDefault (getField parsed "reasoning") (.str text) } := by
    simp only [parseEvaluationResult, hm, hp]
  refine ⟨?_, ?_, ?_⟩
  · intro hfalsy
    rw [hres]
    rcases hfalsy with hnone | ⟨v, hv, hf⟩
    · simp [jsOrDefault, hnone]
    · simp [jsOrDefault, hv, hf]
  · intro hfalsy
    rw [hres]
    rcases hfalsy with hnone | ⟨v, hv, hf⟩
    · simp [jsOrDefault, hnone]
    · simp [jsOrDefault, hv, hf]
  · intro htext
    rw [hres]
    simp only [jsOrDefault]
    cases hg : getField parsed "reasoning" with
    | none => simpa using htext
    | some v =>
      by_cases hv : truthy v = true
      · simp only [hv, if_true]
        intro hcontra
        rw [hcontra] at hv
        simp [truthy] at hv
      · simp only [Bool.not_eq_true] at hv
        simpa [hv] using htext

/-- Witness for C10: both fields present but falsy (empty strings). -/
theorem json_path_defaults_witness :
    jsonMatch "\x7b\"verdict\":\"\",\"reasoning\":\"\"\x7d"
      = some "\x7b\"verdict\":\"\",\"reasoning\":\"\"\x7d" ∧
    jsonParse "\x7b\"verdict\":\"\",\"reasoning\":\"\"\x7d"
      = some (.obj [("verdict", .str ""), ("reasoning", .str "")]) ∧
    (parseEvaluationResult "\x7b\"verdict\":\"\",\"reasoning\":\"\"\x7d").reasoning
      = .str "\x7b\"verdict\":\"\",\"reasoning\":\"\"\x7d" ∧
    (parseEvaluationResult "\x7b\"verdict\":\"\",\"reasoning\":\"\"\x7d").verdict
      = .str "inconclusive" ∧
    (parseEvaluationResult "\x7b\"verdict\":\"\",\"reasoning\":\"\"\x7d").reasoning ≠ .str "" := by
  have h := json_path_defaults "\x7b\"verdict\":\"\",\"reasoning\":\"\"\x7d"
    "\x7b\"verdict\":\"\",\"reasoning\":\"\"\x7d"
    (.obj [("verdict", .str ""), ("reasoning", .str "")]) rfl rfl
  refine ⟨rfl, rfl, ?_, ?_, ?_⟩
  · exact h.1 (Or.inr ⟨.str "", rfl, rfl⟩)
  · exact h.2.1 (Or.inr ⟨.str "", rfl, rfl⟩)
  · exact h.2.2 (by decide)

/-- C6: the built user prompt is the concatenation, in fixed order, of the
claimed sections (each omitted when its flag is off or its data absent),
followed by the fixed closing instruction.  The submission-metadata entry
of `claimedSections` is constantly `none`: the evaluation context carries
no metadata field, so the metadata clause of the claim is vacuous and no
metadata section ever appears. -/
theorem buildUserPrompt_fixed_order (cfg : JudgeConfigMetadata) (context : EvalContext) :
    buildUserPrompt cfg context =
      String.intercalate "\n\n" ((claimedSections cfg context).filterMap id) ++
        closingInstruction := by
  obtain ⟨⟨fqt, fqy, fad, fat⟩⟩ := cfg
  unfold buildUserPrompt claimedSections
  cases fqt <;> cases fqy <;> cases fad <;> cases fat <;>
    rcases context.attachments with _ | ⟨_ | ⟨a, rest⟩⟩ <;>
    simp [List.filterMap]

/-- Counterexample to C7: with no credential present in the environment,
"openai" is still included in the registry's available-provider list even
though `isProviderAvailable` reports it unavailable — the list is the
static set of supported providers, not the configured ones. -/
theorem availability_list_counterexample :
    isProviderAvailable wEnvEmpty "openai" = false ∧
    getAvailableProviders.contains "openai" = true := ⟨rfl, rfl⟩

/-- C7 (amended): `isProviderAvailable` returns true exactly when the
provider's credential was present (and non-empty) at startup, and
`getProvider` fails with its not-configured error exactly otherwise
(including unknown identifiers); but `getAvailableProviders` is the
static list of all supported providers, independent of credentials. -/
theorem availability_amended (env : Env) (p : String) :
    isProviderAvailable env p = keyTruthy (credFor env p) ∧
    getProviderFails env p = !keyTruthy (credFor env p) ∧
    getAvailableProviders = ["openai", "anthropic", "gemini"] := by
  have hget : providersGet env p =
      if keyTruthy (credFor env p) then some (pidOf p) else none := by
    by_cases h1 : p = "openai"
    · subst h1
      cases hO : keyTruthy env.openaiKey <;>
        cases hA : keyTruthy env.anthropicKey <;>
        cases hG : keyTruthy env.geminiKey <;>
          simp [providersGet, initializeProviders, credFor, pidOf, hO, hA, hG]
    · by_cases h2 : p = "anthropic"
      · subst h2
        cases hO : keyTruthy env.openaiKey <;>
          cases hA : keyTruthy env.anthropicKey <;>
          cases hG : keyTruthy env.geminiKey <;>
            simp [providersGet, initializeProviders, credFor, pidOf, hO, hA, hG]
      · by_cases h3 : p = "gemini"
        · subst h3
          cases hO : keyTruthy env.openaiKey <;>
            cases hA : keyTruthy env.anthropicKey <;>
            cases hG : keyTruthy env.geminiKey <;>
              simp [providersGet, initializeProviders, credFor, pidOf, hO, hA, hG]
        · have hcred : credFor env p = none := by
            unfold credFor
            split <;> simp_all
          rw [hcred]
          have hnone : (if keyTruthy none then some (pidOf p) else none) =
              (none : Option ProviderId) := rfl
          rw [hnone]
          simp [providersGet, initializeProviders, keyTruthy]
          exact ⟨fun _ hq => h1 hq.symm, fun _ hq => h2 hq.symm, fun _ hq => h3 hq.symm⟩
  refine ⟨?_, ?_, rfl⟩
  · rw [isProviderAvailable, hget]
    cases keyTruthy (credFor env p) <;> simp
  · rw [getProviderFails, getProvider, hget]
    cases keyTruthy (credFor env p) <;> simp

/-- Counterexample to C8: the factory's anthropic allow-list omits
claude-3-sonnet-20240229, which the Anthropic adapter accepts, so the
registry-level validation and the adapter disagree on that input. -/
theorem validateModel_registry_adapter_counterexample :
    validateProviderConfig "anthropic" "claude-3-sonnet-20240229" = false ∧
    adapterValidateModel .anthropic "claude-3-sonnet-20240229" = true := ⟨rfl, rfl⟩

/-- C8 (amended): registry-level validation consults the factory's own
static allow-list; it agrees with the adapters for openai and gemini on
every model string, while for anthropic it agrees exactly on model
strings outside the two adapter-only entries (claude-3-sonnet-20240229
and claude-3-haiku-20240307); in particular registry-valid always implies
adapter-valid. -/
theorem validateModel_amended (m : String) :
    validateProviderConfig "openai" m = adapterValidateModel .openai m ∧
    validateProviderConfig "gemini" m = adapterValidateModel .gemini m ∧
    validateProviderConfig "anthropic" m =
      (adapterValidateModel .anthropic m && !(anthropicFactoryMissing.contains m)) := by
  refine ⟨?_, ?_, ?_⟩
  · simp only [validateProviderConfig, validateModel, factoryModels, adapterValidateModel,
      openaiValidModels, List.contains, List.elem_eq_mem, List.mem_cons, List.not_mem_nil,
      or_false, decide_eq_decide]
    tauto
  · rfl
  · simp only [validateProviderConfig, validateModel, factoryModels, adapterValidateModel,
      anthropicValidModels, anthropicFactoryMissing, List.contains, List.elem_eq_mem,
      List.mem_cons, List.not_mem_nil, or_false, ← decide_not, ← Bool.decide_and,
      decide_eq_decide]
    constructor
    · intro h
      rcases h with h | h | h <;> subst h <;> simp
    · rintro ⟨h1, h2⟩
      simp only [not_or] at h2
      rcases h1 with h | h | h | h | h <;> subst h <;> simp_all

/-- Counterexample to C9: a Gemini request with an explicit `maxTokens`
still produces an underlying call with no max-output-tokens parameter —
`GeminiProvider.evaluate` never passes one. -/
theorem gemini_maxTokens_counterexample :
    (geminiCall { systemPrompt := "s", userPrompt := "u", contextAttachments := none,
                  model := "gemini-1.5-pro", temperature := none, maxTokens := some 500 }
        "cid").maxOutputTokens = none ∧
    (none : Option Nat) ≠ some 500 := ⟨rfl, by decide⟩

/-- C9 (amended): every adapter calls the model with the request's
temperature, defaulting to 0.7; OpenAI and Anthropic pass the request's
maxTokens with default 1000, while Gemini passes no max-output-tokens
parameter at all. -/
theorem adapter_call_defaults_amended (req : LLMRequest) (cacheId : String) :
    (openaiCall req cacheId).temperature = req.temperature.getD (7 / 10) ∧
    (openaiCall req cacheId).maxOutputTokens = some (req.maxTokens.getD 1000) ∧
    (anthropicCall req cacheId).temperature = req.temperature.getD (7 / 10) ∧
    (anthropicCall req cacheId).maxOutputTokens = some (req.maxTokens.getD 1000) ∧
    (geminiCall req cacheId).temperature = req.temperature.getD (7 / 10) ∧
    (geminiCall req cacheId).maxOutputTokens = none :=
  ⟨rfl, rfl, rfl, rfl, rfl, rfl⟩

/-- Underlying-list view of string concatenation. -/
theorem data_append (a b : String) : (a ++ b).data = a.data ++ b.data := by
  rcases a with ⟨da⟩
  rcases b with ⟨db⟩
  rfl

/-- A concatenation with a non-empty left part is non-empty. -/
theorem append_ne_empty (a b : String) (h : a ≠ "") : a ++ b ≠ "" := by
  intro hab
  apply h
  have hd := congrArg String.data hab
  rw [data_append] at hd
  have ha : a.data = [] := (List.append_eq_nil.mp hd).1
  rcases a with ⟨da⟩
  simp only at ha
  subst ha
  rfl

/-- A verdict passing the `validVerdicts.includes` check is one of the
three verdict strings. -/
theorem includesStr_valid (v : JsonValue) (hv : includesStr validVerdicts v = true) :
    v = .str "pass" ∨ v = .str "fail" ∨ v = .str "inconclusive" := by
  cases v with
  | str s =>
    simp only [includesStr, validVerdicts, List.contains, List.elem_eq_mem, List.mem_cons,
      List.not_mem_nil, or_false, decide_eq_true_eq] at hv
    rcases hv with h | h | h <;> subst h <;> simp
  | null => simp [includesStr] at hv
  | bool b => simp [includesStr] at hv
  | num q => simp [includesStr] at hv
  | arr xs => simp [includesStr] at hv
  | obj fs => simp [includesStr] at hv

/-- Whenever the executor's validation returns a result (rather than the
TypeError of a non-string truthy reasoning), the result's verdict is one
of the three verdict strings and its reasoning is a non-empty string. -/
theorem parseEvaluationResponse_ok (input r : EvaluationResult)
    (h : parseEvaluationResponse input = .ok r) :
    (r.verdict = .str "pass" ∨ r.verdict = .str "fail" ∨ r.verdict = .str "inconclusive") ∧
    ∃ s, r.reasoning = .str s ∧ s ≠ "" := by
  unfold parseEvaluationResponse at h
  split at h
  · injection h with h'
    subst h'
    exact ⟨Or.inr (Or.inr rfl),
      ⟨_, rfl, append_ne_empty _ _ (append_ne_empty _ _ (append_ne_empty _ _ (by decide)))⟩⟩
  · next hv' =>
    have hv : includesStr validVerdicts input.verdict = true := by
      simpa using hv'
    split at h
    · next s heq =>
      split at h
      · injection h with h'
        subst h'
        exact ⟨includesStr_valid _ hv, ⟨_, rfl, by decide⟩⟩
      · next hs =>
        injection h with h'
        subst h'
        have hne : ¬(s = "") := by
          simp only [Bool.or_eq_true, beq_iff_eq, not_or] at hs
          exact hs.1
        exact ⟨includesStr_valid _ hv, ⟨s, heq, hne⟩⟩
    · next v heq =>
      split at h
      · exact absurd h (by simp)
      · injection h with h'
        subst h'
        exact ⟨includesStr_valid _ hv, ⟨_, rfl, by decide⟩⟩

/-- Uniform shape of the three adapters' `evaluate`: call the model, wrap
a thrown error in the adapter's label, otherwise parse the raw text. -/
theorem providerEvaluate_eq (inst : ProviderId) (oracle : CallOracle) (req : LLMRequest)
    (cid : String) :
    providerEvaluate inst oracle req cid =
      match oracle (adapterCall inst req cid) with
      | .error m => .error (adapterErrorLabel inst ++ m)
      | .ok text => .ok { result := parseEvaluationResult text } := by
  cases inst <;> rfl

/-- C1: for every judge, context and adapter behaviour (any raw text or a
thrown error, including an unconfigured provider), `executeEvaluation`
returns a result whose verdict is one of pass/fail/inconclusive and whose
reasoning is a non-empty string; and any exception — a failed provider
resolution or a throwing adapter call — yields exactly
`{verdict: inconclusive, reasoning: "Evaluation failed: <message>"}`. -/
theorem executeEvaluation_total_wellformed (env : Env) (oracle : CallOracle)
    (cacheId : String) (judge : Judge) (context : EvalContext) :
    ((executeEvaluation env oracle cacheId judge context).verdict = .str "pass" ∨
      (executeEvaluation env oracle cacheId judge context).verdict = .str "fail" ∨
      (executeEvaluation env oracle cacheId judge context).verdict = .str "inconclusive") ∧
    (∃ s, (executeEvaluation env oracle cacheId judge context).reasoning = .str s ∧ s ≠ "") ∧
    (∀ m, getProvider env judge.provider = .error m →
      executeEvaluation env oracle cacheId judge context = evaluationFailed m) ∧
    (∀ inst m, getProvider env judge.provider = .ok inst →
      oracle (adapterCall inst (executorRequest judge context) cacheId) = .error m →
      executeEvaluation env oracle cacheId judge context =
        evaluationFailed (adapterErrorLabel inst ++ m)) := by
  have hwf_fail : ∀ m : String,
      ((evaluationFailed m).verdict = .str "pass" ∨ (evaluationFailed m).verdict = .str "fail" ∨
        (evaluationFailed m).verdict = .str "inconclusive") ∧
      ∃ s, (evaluationFailed m).reasoning = .str s ∧ s ≠ "" := fun m =>
    ⟨Or.inr (Or.inr rfl), ⟨_, rfl, append_ne_empty _ _ (by decide)⟩⟩
  cases hprov : getProvider env judge.provider with
  | error m =>
    have hexec : executeEvaluation env oracle cacheId judge context = evaluationFailed m := by
      simp only [executeEvaluation, hprov]
    refine ⟨?_, ?_, ?_, ?_⟩
    · rw [hexec]; exact (hwf_fail m).1
    · rw [hexec]; exact (hwf_fail m).2
    · intro m' hm'
      injection hm' with hmm
      subst hmm
      exact hexec
    · intro inst m' hinst hcall
      exact absurd hinst (by simp)
  | ok inst =>
    cases hcall : oracle (adapterCall inst (executorRequest judge context) cacheId) with
    | error m =>
      have hpe : providerEvaluate inst oracle (executorRequest judge context) cacheId =
          .error (adapterErrorLabel inst ++ m) := by
        rw [providerEvaluate_eq, hcall]
      have hexec : executeEvaluation env oracle cacheId judge context =
          evaluationFailed (adapterErrorLabel inst ++ m) := by
        simp only [executeEvaluation, hprov, hpe]
      refine ⟨?_, ?_, ?_, ?_⟩
      · rw [hexec]; exact (hwf_fail _).1
      · rw [hexec]; exact (hwf_fail _).2
      · intro m' hm'
        exact absurd hm' (by simp)
      · intro inst' m' hinst hcall'
        injection hinst with hii
        subst hii
        rw [hcall] at hcall'
        injection hcall' with hmm
        subst hmm
        exact hexec
    | ok text =>
      have hpe : providerEvaluate inst oracle (executorRequest judge context) cacheId =
          .ok { result := parseEvaluationResult text } := by
        rw [providerEvaluate_eq, hcall]
      have hside : ∀ (x : EvaluationResult), executeEvaluation env oracle cacheId judge context = x →
          (∀ m, (Except.ok inst : Except String ProviderId) = Except.error m →
            executeEvaluation env oracle cacheId judge context = evaluationFailed m) ∧
          (∀ inst' m, (Except.ok inst : Except String ProviderId) = Except.ok inst' →
            oracle (adapterCall inst' (executorRequest judge context) cacheId) = .error m →
            executeEvaluation env oracle cacheId judge context =
              evaluationFailed (adapterErrorLabel inst' ++ m)) := by
        intro x _
        constructor
        · intro m' hm'
          exact absurd hm' (by simp)
        · intro inst' m' hinst hcall'
          injection hinst with hii
          subst hii
          rw [hcall] at hcall'
          exact absurd hcall' (by simp)
      cases hresp : parseEvaluationResponse (parseEvaluationResult text) with
      | error me =>
        have hexec : executeEvaluation env oracle cacheId judge context = evaluationFailed me := by
          simp only [executeEvaluation, hprov, hpe, hresp]
        exact ⟨by rw [hexec]; exact (hwf_fail _).1, by rw [hexec]; exact (hwf_fail _).2,
          (hside _ hexec).1, (hside _ hexec).2⟩
      | ok r =>
        have hexec : executeEvaluation env oracle cacheId judge context = r := by
          simp only [executeEvaluation, hprov, hpe, hresp]
        obtain ⟨hv, hs⟩ := parseEvaluationResponse_ok _ _ hresp
        exact ⟨by rw [hexec]; exact hv, by rw [hexec]; exact hs,
          (hside _ hexec).1, (hside _ hexec).2⟩

/-- Witness for C1: with no credential configured, evaluating under an
openai judge hits the provider-resolution exception and returns the
uniform failure result, which is well-formed. -/
theorem executeEvaluation_wellformed_witness :
    executeEvaluation wEnvEmpty wOracleDown "cid" wJudge wContext =
      evaluationFailed "Provider openai is not configured or not available" ∧
    (executeEvaluation wEnvEmpty wOracleDown "cid" wJudge wContext).verdict =
      .str "inconclusive" ∧
    (executeEvaluation wEnvEmpty wOracleDown "cid" wJudge wContext).reasoning =
      .str "Evaluation failed: Provider openai is not configured or not available" :=
  ⟨(executeEvaluation_total_wellformed wEnvEmpty wOracleDown "cid" wJudge wContext).2.2.1
      "Provider openai is not configured or not available" rfl,
    rfl, rfl⟩

/-- Counting a predicate and its negation covers the whole list. -/
theorem countP_add_countP_not {α : Type} (p : α → Bool) (l : List α) :
    l.countP p + l.countP (fun a => !p a) = l.length := by
  induction l with
  | nil => rfl
  | cons a t ih =>
    by_cases h : p a = true <;> simp [List.countP_cons, h] <;> omega

/-- Inserting a task into its provider bucket appends it, up to
permutation of the flattened view. -/
theorem flattenTasks_insertTask (acc : List (String × List EvaluationTask))
    (provider : String) (task : EvaluationTask) :
    List.Perm (flattenTasks (insertTask acc provider task)) (flattenTasks acc ++ [task]) := by
  induction acc with
  | nil =>
    simp only [insertTask, flattenTasks, List.map_cons, List.map_nil, List.flatten_cons,
      List.flatten_nil, List.append_nil, List.nil_append]
    exact List.Perm.refl _
  | cons hd tl ih =>
    obtain ⟨p, ts⟩ := hd
    by_cases hp : (p == provider) = true
    · simp only [insertTask, hp, if_true, flattenTasks, List.map_cons, List.flatten_cons,
        List.append_assoc]
      exact List.Perm.append_left ts List.perm_append_comm
    · simp only [insertTask, hp, if_false, flattenTasks, List.map_cons, List.flatten_cons,
        List.append_assoc, Bool.false_eq_true]
      exact List.Perm.append_left ts ih

/-- The flattened provider buckets are a permutation of the accumulated
tasks followed by the grouped tasks. -/
theorem groupTasksByProvider_perm (groupReads : EvaluationTask → JudgeRead) :
    ∀ (tasks : List EvaluationTask) (acc groups : List (String × List EvaluationTask)),
      groupTasksByProvider groupReads tasks acc = .ok groups →
      List.Perm (flattenTasks groups) (flattenTasks acc ++ tasks) := by
  intro tasks
  induction tasks with
  | nil =>
    intro acc groups h
    simp only [groupTasksByProvider] at h
    injection h with h'
    subst h'
    simp
  | cons t rest ih =>
    intro acc groups h
    simp only [groupTasksByProvider] at h
    cases hj : getJudge (groupReads t) t.judge_id with
    | error m =>
      rw [hj] at h
      exact absurd h (by simp)
    | ok judge =>
      rw [hj] at h
      have hstep := ih (insertTask acc judge.provider t) groups h
      rw [show flattenTasks acc ++ t :: rest = (flattenTasks acc ++ [t]) ++ rest by simp]
      exact hstep.trans ((flattenTasks_insertTask acc judge.provider t).append_right rest)

/-- One step of the aggregation fold. -/
theorem aggregate_cons (r : TaskOutcome) (rest : List TaskOutcome) (s : EvaluationSummary) :
    aggregate (r :: rest) s = aggregate rest
      (if r.success then { s with completed := s.completed + 1 }
       else { s with
                failed := s.failed + 1,
                errors := s.errors ++
                  [{ task := r.task, error := r.error.getD "Unknown error" }] }) :=
  rfl

/-- Closed form of the aggregation loop: the counters count successes and
failures, and the failure list collects `toTaskError` of each outcome. -/
theorem aggregate_spec (results : List TaskOutcome) (s : EvaluationSummary) :
    aggregate results s =
      { total := s.total,
        completed := s.completed + results.countP (fun r => r.success),
        failed := s.failed + results.countP (fun r => !r.success),
        errors := s.errors ++ results.filterMap toTaskError } := by
  induction results generalizing s with
  | nil => simp [aggregate]
  | cons r rest ih =>
    rw [aggregate_cons]
    by_cases hr : r.success = true
    · rw [if_pos hr, ih]
      simp [List.countP_cons, List.filterMap_cons, toTaskError, hr,
        EvaluationSummary.mk.injEq, List.append_assoc]
      all_goals omega
    · rw [if_neg hr, ih]
      simp only [Bool.not_eq_true] at hr
      simp [List.countP_cons, List.filterMap_cons, toTaskError, hr,
        EvaluationSummary.mk.injEq, List.append_assoc]
      all_goals omega

/-- One task's settled outcome, expressed through `taskFailure`. -/
theorem runTask_eq (env : Env) (oracle : CallOracle) (cacheIds : EvaluationTask → String)
    (slotReads : EvaluationTask → JudgeRead) (storeDb : StoreDb)
    (attBy : String → List Attachment) (task : EvaluationTask) :
    runTask env oracle cacheIds slotReads storeDb attBy task =
      { success := (taskFailure env oracle cacheIds slotReads storeDb attBy task).isNone,
        task := task,
        error := taskFailure env oracle cacheIds slotReads storeDb attBy task } := by
  cases hj : getJudge (slotReads task) task.judge_id with
  | error e => simp [runTask, taskFailure, hj]
  | ok judge =>
    cases hs : storeDb task.answer_id task.judge_id
        (executeEvaluation env oracle (cacheIds task) judge (taskContext attBy task)) with
    | none => simp [runTask, taskFailure, storeEvaluationResult, hj, hs]
    | some m => simp [runTask, taskFailure, storeEvaluationResult, hj, hs]

/-- Mapping over the flattened buckets equals flattening the mapped
buckets. -/
theorem flatten_map_runTask (f : EvaluationTask → TaskOutcome)
    (groups : List (String × List EvaluationTask)) :
    (groups.map (fun g => g.2.map f)).flatten = (flattenTasks groups).map f := by
  induction groups with
  | nil => rfl
  | cons g tl ih =>
    simp [flattenTasks, List.map_append, ih]

/-- C2: whenever `runEvaluations` returns a summary, completed + failed
equals total, and total is the number of EvaluationTasks built for the
queue — no task is lost and none is double-counted. -/
theorem runEvaluations_no_task_loss (env : Env) (oracle : CallOracle)
    (cacheIds : EvaluationTask → String)
    (groupReads slotReads : EvaluationTask → JudgeRead) (storeDb : StoreDb)
    (tasks : List EvaluationTask) (attBy : String → List Attachment) (s : EvaluationSummary)
    (h : runEvaluations env oracle cacheIds groupReads slotReads storeDb (.ok tasks attBy)
      = .ok s) :
    s.completed + s.failed = s.total ∧ s.total = tasks.length := by
  simp only [runEvaluations] at h
  by_cases hlen : (tasks.length == 0) = true
  · rw [if_pos hlen] at h
    injection h with h'
    subst h'
    simp only [Nat.beq_eq_true_eq] at hlen
    exact ⟨rfl, hlen.symm⟩
  · rw [if_neg hlen] at h
    simp only [executeEvaluations] at h
    cases hg : groupTasksByProvider groupReads tasks [] with
    | error m =>
      rw [hg] at h
      exact absurd h (by simp)
    | ok groups =>
      rw [hg] at h
      injection h with h'
      subst h'
      have hperm : List.Perm (flattenTasks groups) tasks := by
        simpa [flattenTasks] using groupTasksByProvider_perm groupReads tasks [] groups hg
      rw [flatten_map_runTask, aggregate_spec]
      refine ⟨?_, rfl⟩
      simp only [Nat.zero_add]
      rw [List.countP_map, List.countP_map]
      have hcomp := countP_add_countP_not
        (fun t => (runTask env oracle cacheIds slotReads storeDb attBy t).success)
        (flattenTasks groups)
      calc List.countP
            ((fun r => r.success) ∘ runTask env oracle cacheIds slotReads storeDb attBy)
            (flattenTasks groups) +
          List.countP ((fun r => !r.success) ∘ runTask env oracle cacheIds slotReads storeDb attBy)
            (flattenTasks groups)
          = (flattenTasks groups).length := hcomp
        _ = tasks.length := hperm.length_eq

/-- Witness for C2: a one-task queue whose adapter call fails but whose
storage write succeeds yields a summary with completed 1, failed 0,
total 1. -/
theorem runEvaluations_no_task_loss_witness :
    runEvaluations wEnv wOracleDown wCacheIds wReadsOk wReadsOk wStoreOk
        (.ok [wTask] (fun _ => [])) =
      .ok { total := 1, completed := 1, failed := 0, errors := [] } ∧
    (1 + 0 = 1 ∧ 1 = [wTask].length) :=
  ⟨rfl, runEvaluations_no_task_loss wEnv wOracleDown wCacheIds wReadsOk wReadsOk wStoreOk
      [wTask] (fun _ => []) { total := 1, completed := 1, failed := 0, errors := [] } rfl⟩

/-- A list passes its own prefix test against any extension. -/
theorem listPre_append_self : ∀ (l m : List Char), listPre l (l ++ m) = true
  | [], _ => rfl
  | a :: as, m => by
    simp only [List.cons_append, listPre, beq_self_eq_true, if_true]
    exact listPre_append_self as m

/-- Counterexample to C5: the judge is re-fetched inside the rate-limited
slot — a second, independent database read (caching is disabled).  When
that re-fetch fails after the grouping-phase read succeeded, the per-task
`.catch` records the fetch-failure message in the summary's failure list:
an error that is not a storage-write failure, contradicting the claim
that only StorageError entries ever appear there. -/
theorem judge_refetch_error_counterexample :
    executeEvaluations wEnv wOracleDown wCacheIds wReadsOk wReadsFail wStoreOk [wTask]
        (fun _ => []) =
      .ok { total := 1, completed := 0, failed := 1,
            errors := [{ task := wTask,
                         error := "Failed to fetch judge j1: connection reset" }] } ∧
    (∀ m : String,
      "Failed to fetch judge j1: connection reset" ≠
        "Failed to store evaluation result: " ++ m) := by
  refine ⟨rfl, ?_⟩
  intro m h
  have h2 : listPre "Failed to store evaluation result: ".data
      "Failed to fetch judge j1: connection reset".data = true := by
    rw [h, data_append]
    exact listPre_append_self _ _
  exact absurd h2 (by decide)

/-- C5 (amended): whenever the batch returns a summary, every entry of
its failure list is either a storage-write failure — the storage-failure
message wrapping the insert error of that task's evaluation result — or a
failed in-slot judge re-fetch carrying its fetch-failure message (the
judge is read again inside the rate-limited slot, independently of the
grouping-phase read, since caching is disabled); the failed counter
counts exactly the tasks whose in-slot fetch or insert failed, and the
completed counter counts exactly the tasks whose in-slot fetch and insert
both succeeded, regardless of verdict (inconclusive included). -/
theorem summary_errors_storage_or_refetch (env : Env) (oracle : CallOracle)
    (cacheIds : EvaluationTask → String)
    (groupReads slotReads : EvaluationTask → JudgeRead) (storeDb : StoreDb)
    (tasks : List EvaluationTask) (attBy : String → List Attachment) (s : EvaluationSummary)
    (h : executeEvaluations env oracle cacheIds groupReads slotReads storeDb tasks attBy
      = .ok s) :
    (∀ te ∈ s.errors, te.task ∈ tasks ∧
      ((∃ em, slotReads te.task = .inl em ∧
          te.error = "Failed to fetch judge " ++ te.task.judge_id ++ ": " ++
            em.getD "undefined") ∨
       (∃ judge m, slotReads te.task = .inr judge ∧
          te.error = "Failed to store evaluation result: " ++ m ∧
          storeDb te.task.answer_id te.task.judge_id
            (executeEvaluation env oracle (cacheIds te.task) judge (taskContext attBy te.task))
            = some m))) ∧
    s.failed = tasks.countP
      (fun t => (taskFailure env oracle cacheIds slotReads storeDb attBy t).isSome) ∧
    s.completed = tasks.countP
      (fun t => (taskFailure env oracle cacheIds slotReads storeDb attBy t).isNone) := by
  simp only [executeEvaluations] at h
  cases hg : groupTasksByProvider groupReads tasks [] with
  | error m =>
    rw [hg] at h
    exact absurd h (by simp)
  | ok groups =>
    rw [hg] at h
    injection h with h'
    subst h'
    have hperm : List.Perm (flattenTasks groups) tasks := by
      simpa [flattenTasks] using groupTasksByProvider_perm groupReads tasks [] groups hg
    rw [flatten_map_runTask, aggregate_spec]
    refine ⟨?_, ?_, ?_⟩
    · intro te hte
      simp only [List.nil_append] at hte
      rw [List.mem_filterMap] at hte
      obtain ⟨r, hr, hconv⟩ := hte
      rw [List.mem_map] at hr
      obtain ⟨t, htg, rfl⟩ := hr
      rw [runTask_eq] at hconv
      have htmem : t ∈ tasks := hperm.mem_iff.mp htg
      cases hslot : slotReads t with
      | inl em =>
        have htf : taskFailure env oracle cacheIds slotReads storeDb attBy t =
            some ("Failed to fetch judge " ++ t.judge_id ++ ": " ++ em.getD "undefined") := by
          simp only [taskFailure, getJudge, hslot]
        rw [htf] at hconv
        simp only [toTaskError] at hconv
        simp at hconv
        subst hconv
        exact ⟨htmem, Or.inl ⟨em, hslot, rfl⟩⟩
      | inr j =>
        have htf : taskFailure env oracle cacheIds slotReads storeDb attBy t =
            (storeDb t.answer_id t.judge_id
                (executeEvaluation env oracle (cacheIds t) j (taskContext attBy t))).map
              (fun m => "Failed to store evaluation result: " ++ m) := by
          simp only [taskFailure, getJudge, hslot]
        cases hsd : storeDb t.answer_id t.judge_id
            (executeEvaluation env oracle (cacheIds t) j (taskContext attBy t)) with
        | none =>
          rw [htf, hsd] at hconv
          simp [toTaskError] at hconv
        | some m =>
          rw [htf, hsd] at hconv
          simp only [toTaskError] at hconv
          simp at hconv
          subst hconv
          exact ⟨htmem, Or.inr ⟨j, m, hslot, rfl, hsd⟩⟩
    · simp only [Nat.zero_add]
      rw [List.countP_map]
      have hpoint : ∀ t ∈ flattenTasks groups,
          ((fun r => !r.success) ∘ runTask env oracle cacheIds slotReads storeDb attBy) t =
            (taskFailure env oracle cacheIds slotReads storeDb attBy t).isSome := by
        intro t _
        simp only [Function.comp_apply, runTask_eq]
        cases taskFailure env oracle cacheIds slotReads storeDb attBy t <;> rfl
      exact hperm.countP_congr hpoint
    · simp only [Nat.zero_add]
      rw [List.countP_map]
      have hpoint : ∀ t ∈ flattenTasks groups,
          ((fun r => r.success) ∘ runTask env oracle cacheIds slotReads storeDb attBy) t =
            (taskFailure env oracle cacheIds slotReads storeDb attBy t).isNone := by
        intro t _
        simp only [Function.comp_apply, runTask_eq]
      exact hperm.countP_congr hpoint

/-- Witness for C5 (amended): a one-task batch whose judge re-fetch
succeeds but whose insert fails is counted failed with its storage error
recorded; the conclusions of the theorem hold at the concrete summary. -/
theorem summary_errors_storage_or_refetch_witness :
    executeEvaluations wEnv wOracleDown wCacheIds wReadsOk wReadsOk wStoreFail [wTask]
        (fun _ => []) =
      .ok { total := 1, completed := 0, failed := 1,
            errors := [{ task := wTask,
                         error := "Failed to store evaluation result: disk full" }] } ∧
    ((∀ te ∈ ({ total := 1, completed := 0, failed := 1,
                errors := [{ task := wTask,
                             error := "Failed to store evaluation result: disk full" }] } :
          EvaluationSummary).errors, te.task ∈ [wTask] ∧
        ((∃ em, wReadsOk te.task = .inl em ∧
            te.error = "Failed to fetch judge " ++ te.task.judge_id ++ ": " ++
              em.getD "undefined") ∨
         (∃ judge m, wReadsOk te.task = .inr judge ∧
            te.error = "Failed to store evaluation result: " ++ m ∧
            wStoreFail te.task.answer_id te.task.judge_id
              (executeEvaluation wEnv wOracleDown (wCacheIds te.task) judge
                (taskContext (fun _ => []) te.task)) = some m))) ∧
      (1 = [wTask].countP
        (fun t =>
          (taskFailure wEnv wOracleDown wCacheIds wReadsOk wStoreFail (fun _ => []) t).isSome)) ∧
      (0 = [wTask].countP
        (fun t =>
          (taskFailure wEnv wOracleDown wCacheIds wReadsOk wStoreFail (fun _ => []) t).isNone))) :=
  ⟨rfl, summary_errors_storage_or_refetch wEnv wOracleDown wCacheIds wReadsOk wReadsOk
      wStoreFail [wTask] (fun _ => []) _ rfl⟩

end AiJudge
